import Mathlib

/-!
Shallow embedding of the I2C IR remote-control responder (`IR_Remote_Sim.ino`).

The sketch turns an Arduino into an I2C slave that buffers fixed 12-byte
command frames into `uDataArray` (capacity `MAX_SEQUENCES = 20`) via the
`receiveEvent` wire callback, and plays the buffered frames back in `loop()`
as nested repeat loops that dispatch one of five `IRsend` encoders and
insert millisecond delays.

The embedding translates:
  * the packed `registerAllocationType` struct and its byte aliasing through
    `dataArrayRegisterAllocationUnionType` as an explicit little-endian
    `encodeFrame` / `decodeFrame` pair (AVR is little-endian, the struct is
    `__attribute((__packed__))`, so field offsets are 0,1..4,5,6,7,8,9..10,11);
  * the globals (`uDataArray`, `uiRegisterPointer`, `uiDataArrayPointer`,
    `bFreshDataFlag`, `current_state`, `iDataArrayIndex`, the READY pin) as a
    `SimState` record;
  * `receiveEvent` as a state transformer taking the bytes of one transfer;
  * `loop()` as a state transformer that also returns the trace of external
    effects (`irsend.sendXXX` calls and `delay` calls) as a list of `IREvent`s.
    The inner `while` loops of `loop()` run to completion within one call, so
    one `loopStep` plays a whole committed batch.

Machine integers: all byte / uint16 / uint32 fields are modelled as `Nat`;
`% 256` etc. appear exactly where the hardware truncates (in `encodeFrame`,
which models storing a typed field into the packed byte array).
-/

/-- `#define MAX_SEQUENCES 20` -/
def MAX_SEQUENCES : Nat := 20

/-- `#define MAX_BUFFER sizeof(registerAllocationType)`; the packed struct is
`1 + 4 + 1 + 1 + 1 + 1 + 2 + 1 = 12` bytes. -/
def MAX_BUFFER : Nat := 12

/-- The packed `registerAllocationType` struct: one queued key press.
All fields are `Nat` images of `byte` / `uint32_t` / `uint16_t`. -/
structure Frame where
  bEncoding : Nat
  ui32Data : Nat
  bNumberOfBitsInTheData : Nat
  bPulseTrainRepeats : Nat
  bDelayBetweenPulseTrainRepeats : Nat
  bButtonRepeats : Nat
  ui16DelayBetweenButtonRepeats : Nat
  bFreshData : Nat
  deriving Repr, DecidableEq

/-- Reading the packed struct fields out of the 12-byte `ucDataArray` view of
the union (`uData.ra` after the bytes were written through `uData.da`).
Multi-byte fields are little-endian: `ui32Data` at offsets 1..4 LSByte first,
`ui16DelayBetweenButtonRepeats` at offsets 9..10 LSByte first. -/
def decodeFrame (bs : List Nat) : Frame :=
  { bEncoding := bs.getD 0 0
  , ui32Data :=
      bs.getD 1 0 + 256 * bs.getD 2 0 + 65536 * bs.getD 3 0 + 16777216 * bs.getD 4 0
  , bNumberOfBitsInTheData := bs.getD 5 0
  , bPulseTrainRepeats := bs.getD 6 0
  , bDelayBetweenPulseTrainRepeats := bs.getD 7 0
  , bButtonRepeats := bs.getD 8 0
  , ui16DelayBetweenButtonRepeats := bs.getD 9 0 + 256 * bs.getD 10 0
  , bFreshData := bs.getD 11 0 }

/-- Writing the typed fields of the packed struct into its 12-byte view
(`uData.da.ucDataArray` after assigning `uData.ra.*`), the inverse aliasing
direction used by the I2C master sketch.  Storing into a `byte` slot truncates
mod 256; the `uint32`/`uint16` fields are laid out LSByte first. -/
def encodeFrame (f : Frame) : List Nat :=
  [ f.bEncoding % 256
  , f.ui32Data % 256
  , f.ui32Data / 256 % 256
  , f.ui32Data / 65536 % 256
  , f.ui32Data / 16777216 % 256
  , f.bNumberOfBitsInTheData % 256
  , f.bPulseTrainRepeats % 256
  , f.bDelayBetweenPulseTrainRepeats % 256
  , f.bButtonRepeats % 256
  , f.ui16DelayBetweenButtonRepeats % 256
  , f.ui16DelayBetweenButtonRepeats / 256 % 256
  , f.bFreshData % 256 ]

/-- Claim C5: for every `Frame` whose fields are within their declared machine
ranges (`byte` fields < 256, `ui32Data` < 2^32, the button-repeat delay
< 2^16), decoding the 12-byte encoding of the frame yields the frame back:
`decodeFrame (encodeFrame f) = f`. -/
theorem C5_decode_encode_roundtrip (f : Frame)
    (hEnc : f.bEncoding < 256)
    (hData : f.ui32Data < 4294967296)
    (hBits : f.bNumberOfBitsInTheData < 256)
    (hPT : f.bPulseTrainRepeats < 256)
    (hPTD : f.bDelayBetweenPulseTrainRepeats < 256)
    (hBR : f.bButtonRepeats < 256)
    (hBRD : f.ui16DelayBetweenButtonRepeats < 65536)
    (hFresh : f.bFreshData < 256) :
    decodeFrame (encodeFrame f) = f := by
  simp only [encodeFrame, decodeFrame, List.getD_cons_zero, List.getD_cons_succ]
  cases f
  simp only [Frame.mk.injEq]
  refine ⟨?_, ?_, ?_, ?_, ?_, ?_, ?_, ?_⟩ <;> simp_all <;> omega

/-- Witness for C5 at the demonstration frame the master sketch sends for
"Sky button 1" (`RC6`, data `0xC05C01`, 24 bits, 2 pulse-train repeats,
124 ms, 1 button repeat, 400 ms, committed). -/
theorem C5_decode_encode_roundtrip_witness :
    decodeFrame (encodeFrame (Frame.mk 0 12606465 24 2 124 1 400 255)) =
      Frame.mk 0 12606465 24 2 124 1 400 255 :=
  C5_decode_encode_roundtrip (Frame.mk 0 12606465 24 2 124 1 400 255)
    (by decide) (by decide) (by decide) (by decide) (by decide) (by decide)
    (by decide) (by decide)

/-- One external effect of `loop()`: an `irsend.sendXXX` call (the encoder
dispatch, one constructor per `case` of the `switch` on `bEncoding`) or a
`delay(ms)` call. -/
inductive IREvent where
  | sendRC6 (data bits : Nat)
  | sendSony (data bits : Nat)
  | sendSAMSUNG (data bits : Nat)
  | sendNEC (data bits : Nat)
  | sendLG (data bits : Nat)
  | delayMs (ms : Nat)
  deriving Repr, DecidableEq

/-- `true` exactly on the five waveform-send events (the encoder dispatch
outcomes), `false` on `delay`. -/
def isSend : IREvent → Bool
  | IREvent.delayMs _ => false
  | _ => true

/-- Number of waveform-send calls in a trace. -/
def sendCount (tr : List IREvent) : Nat := tr.countP isSend

/-- The `switch (uDataArray[i].ra.bEncoding)` of `loop()`: encoding 0..4
selects `sendRC6` / `sendSony` / `sendSAMSUNG` / `sendNEC` / `sendLG` on
`(ui32Data, bNumberOfBitsInTheData)`; any other value matches no `case`
(there is no `default`), so no send call is made. -/
def dispatchEvents (f : Frame) : List IREvent :=
  if f.bEncoding = 0 then [IREvent.sendRC6 f.ui32Data f.bNumberOfBitsInTheData]
  else if f.bEncoding = 1 then [IREvent.sendSony f.ui32Data f.bNumberOfBitsInTheData]
  else if f.bEncoding = 2 then [IREvent.sendSAMSUNG f.ui32Data f.bNumberOfBitsInTheData]
  else if f.bEncoding = 3 then [IREvent.sendNEC f.ui32Data f.bNumberOfBitsInTheData]
  else if f.bEncoding = 4 then [IREvent.sendLG f.ui32Data f.bNumberOfBitsInTheData]
  else []

/-- The innermost `while (iPulseTrainRepeats < ...bPulseTrainRepeats)` loop of
`loop()`, by remaining iteration count: each iteration dispatches the encoder
switch and then calls `delay(bDelayBetweenPulseTrainRepeats)`. -/
def pulseLoop (f : Frame) : Nat → List IREvent
  | 0 => []
  | n + 1 =>
      (dispatchEvents f ++ [IREvent.delayMs f.bDelayBetweenPulseTrainRepeats])
        ++ pulseLoop f n

/-- The middle `while (iButtonRepeats < ...bButtonRepeats)` loop of `loop()`,
by remaining iteration count: each iteration runs the full pulse-train loop and
then, `if (...ui16DelayBetweenButtonRepeats > 0)`, calls
`delay(ui16DelayBetweenButtonRepeats)`. -/
def buttonLoop (f : Frame) : Nat → List IREvent
  | 0 => []
  | n + 1 =>
      (pulseLoop f f.bPulseTrainRepeats
        ++ (if 0 < f.ui16DelayBetweenButtonRepeats then
              [IREvent.delayMs f.ui16DelayBetweenButtonRepeats] else []))
        ++ buttonLoop f n

/-- The trace `loop()` emits for one queue entry. -/
def playFrame (f : Frame) : List IREvent := buttonLoop f f.bButtonRepeats

/-- The outer `while (iDataArrayIndex < uiDataArrayPointer)` loop of `loop()`,
by remaining iteration count, starting at entry `idx` of the byte array:
each iteration plays entry `idx` (read through the union, i.e. decoded) and
increments the index. -/
def frameSteps (arr : List (List Nat)) : Nat → Nat → List IREvent
  | _, 0 => []
  | idx, n + 1 =>
      playFrame (decodeFrame (arr.getD idx [])) ++ frameSteps arr (idx + 1) n

/-- The outer playback loop from `iDataArrayIndex = idx` up to
`uiDataArrayPointer = ptr` (the loop body runs `ptr - idx` times). -/
def frameLoop (arr : List (List Nat)) (idx ptr : Nat) : List IREvent :=
  frameSteps arr idx (ptr - idx)

/-- `eSEND_STATE`. -/
inductive eSEND_STATE where
  | eIDLE
  | eBUSY
  deriving Repr, DecidableEq

/-- The globals of the responder sketch.  `uDataArray` keeps each entry as its
raw 12 received bytes (the `ucDataArray` view of the union); field reads in
`loop()` and `receiveEvent` go through `decodeFrame`.  `readyPin` is digital
pin 4: `true` = HIGH = ready, `false` = LOW = busy. -/
structure SimState where
  uDataArray : List (List Nat)
  uiRegisterPointer : Nat
  uiDataArrayPointer : Nat
  bFreshDataFlag : Bool
  current_state : eSEND_STATE
  iDataArrayIndex : Nat
  readyPin : Bool
  deriving Repr, DecidableEq

/-- State after `setup()`: cleared receive buffer, zeroed pointers and flag,
idle, ready pin driven HIGH. -/
def setupState : SimState :=
  { uDataArray := List.replicate MAX_SEQUENCES (List.replicate MAX_BUFFER 0)
  , uiRegisterPointer := 0
  , uiDataArrayPointer := 0
  , bFreshDataFlag := false
  , current_state := eSEND_STATE.eIDLE
  , iDataArrayIndex := 0
  , readyPin := true }

/-- `receiveEvent(howMany)`, taking the bytes of one inbound transfer
(`howMany = bytes.length`).  On a well-formed transfer
(`howMany > 0 && howMany == MAX_BUFFER`) it copies the 12 bytes into entry
`uiDataArrayPointer` (leaving `uiRegisterPointer` at 12), raises
`bFreshDataFlag` if the just-stored entry's `bFreshData` byte is nonzero, and
increments `uiDataArrayPointer` only `if (uiDataArrayPointer < MAX_SEQUENCES-1)`.
Otherwise it only reads bytes out of the Wire buffer and changes nothing. -/
def receiveEvent (s : SimState) (bytes : List Nat) : SimState :=
  if 0 < bytes.length ∧ bytes.length = MAX_BUFFER then
    { s with
      uiRegisterPointer := MAX_BUFFER
      uDataArray := s.uDataArray.set s.uiDataArrayPointer bytes
      bFreshDataFlag := if bytes.getD 11 0 ≠ 0 then true else s.bFreshDataFlag
      uiDataArrayPointer :=
        if s.uiDataArrayPointer < MAX_SEQUENCES - 1 then s.uiDataArrayPointer + 1
        else s.uiDataArrayPointer }
  else s

/-- How many `Wire.read()` calls `receiveEvent(howMany)` makes: `howMany` in
the well-formed branch, but only `howMany - 1` in the malformed branch
(`for (int x = 0; x < howMany-1; x++) b = Wire.read();`). -/
def wireReadsInReceiveEvent (howMany : Nat) : Nat :=
  if 0 < howMany ∧ howMany = MAX_BUFFER then howMany else howMany - 1

/-- A sequence of inbound transfers handled in order. -/
def receiveAll (s : SimState) (transfers : List (List Nat)) : SimState :=
  transfers.foldl receiveEvent s

/-- One invocation of `loop()`, returning the successor state and the trace of
send/delay effects.  The three phases of `loop()`:
1. if `bFreshDataFlag && current_state == eIDLE`: drive pin 4 LOW, go `eBUSY`,
   clear the flag, reset `iDataArrayIndex`;
2. if `eBUSY`: run the nested `while` loops to completion, playing entries
   `iDataArrayIndex .. uiDataArrayPointer - 1` (afterwards
   `iDataArrayIndex = max iDataArrayIndex uiDataArrayPointer`);
3. if `iDataArrayIndex >= uiDataArrayPointer` and still `eBUSY`: go `eIDLE`,
   reset `uiDataArrayPointer` to 0, drive pin 4 HIGH. -/
def loopStep (s : SimState) : SimState × List IREvent :=
  let s1 :=
    if s.bFreshDataFlag = true ∧ s.current_state = eSEND_STATE.eIDLE then
      { s with readyPin := false, current_state := eSEND_STATE.eBUSY,
               bFreshDataFlag := false, iDataArrayIndex := 0 }
    else s
  let tr :=
    if s1.current_state = eSEND_STATE.eBUSY then
      frameLoop s1.uDataArray s1.iDataArrayIndex s1.uiDataArrayPointer
    else []
  let s2 :=
    if s1.current_state = eSEND_STATE.eBUSY then
      { s1 with iDataArrayIndex := max s1.iDataArrayIndex s1.uiDataArrayPointer }
    else s1
  let s3 :=
    if s2.uiDataArrayPointer ≤ s2.iDataArrayIndex ∧ s2.current_state = eSEND_STATE.eBUSY then
      { s2 with current_state := eSEND_STATE.eIDLE, uiDataArrayPointer := 0,
                readyPin := true }
    else s2
  (s3, tr)

/-! ### Helper lemmas about traces -/

theorem sendCount_append (a b : List IREvent) :
    sendCount (a ++ b) = sendCount a + sendCount b := by
  simp [sendCount, List.countP_append]

theorem sendCount_delay (ms : Nat) : sendCount [IREvent.delayMs ms] = 0 := by
  simp [sendCount, List.countP_cons, isSend]

theorem sendCount_pulseLoop (f : Frame) (n : Nat) :
    sendCount (pulseLoop f n) = n * sendCount (dispatchEvents f) := by
  induction n with
  | zero => simp [pulseLoop, sendCount]
  | succ n ih =>
      rw [pulseLoop, sendCount_append, sendCount_append, sendCount_delay, ih]
      ring

theorem sendCount_buttonTail (f : Frame) :
    sendCount (if 0 < f.ui16DelayBetweenButtonRepeats then
      [IREvent.delayMs f.ui16DelayBetweenButtonRepeats] else []) = 0 := by
  split
  · exact sendCount_delay _
  · rfl

theorem sendCount_buttonLoop (f : Frame) (n : Nat) :
    sendCount (buttonLoop f n) =
      n * (f.bPulseTrainRepeats * sendCount (dispatchEvents f)) := by
  induction n with
  | zero => simp [buttonLoop, sendCount]
  | succ n ih =>
      rw [buttonLoop, sendCount_append, sendCount_append, sendCount_buttonTail,
        sendCount_pulseLoop, ih]
      ring

theorem sendCount_playFrame (f : Frame) :
    sendCount (playFrame f) =
      f.bButtonRepeats * (f.bPulseTrainRepeats * sendCount (dispatchEvents f)) :=
  sendCount_buttonLoop f f.bButtonRepeats

/-- On a recognized encoding (0..4), the `switch` performs exactly one send. -/
theorem dispatchEvents_known (f : Frame) (h : f.bEncoding ≤ 4) :
    ∃ e, isSend e = true ∧ dispatchEvents f = [e] := by
  have h5 : f.bEncoding = 0 ∨ f.bEncoding = 1 ∨ f.bEncoding = 2 ∨
      f.bEncoding = 3 ∨ f.bEncoding = 4 := by omega
  rcases h5 with h0 | h1 | h2 | h3 | h4
  · exact ⟨IREvent.sendRC6 f.ui32Data f.bNumberOfBitsInTheData, rfl,
      by simp [dispatchEvents, h0]⟩
  · exact ⟨IREvent.sendSony f.ui32Data f.bNumberOfBitsInTheData, rfl,
      by simp [dispatchEvents, h1]⟩
  · exact ⟨IREvent.sendSAMSUNG f.ui32Data f.bNumberOfBitsInTheData, rfl,
      by simp [dispatchEvents, h2]⟩
  · exact ⟨IREvent.sendNEC f.ui32Data f.bNumberOfBitsInTheData, rfl,
      by simp [dispatchEvents, h3]⟩
  · exact ⟨IREvent.sendLG f.ui32Data f.bNumberOfBitsInTheData, rfl,
      by simp [dispatchEvents, h4]⟩

/-- On an unrecognized encoding the `switch` matches no `case` and performs
no send. -/
theorem dispatchEvents_unknown (f : Frame) (h : 4 < f.bEncoding) :
    dispatchEvents f = [] := by
  unfold dispatchEvents
  rw [if_neg (by omega), if_neg (by omega), if_neg (by omega), if_neg (by omega),
    if_neg (by omega)]

/-- Unrolling one iteration of the outer playback `while` loop. -/
theorem frameLoop_cons (arr : List (List Nat)) (idx ptr : Nat) (h : idx < ptr) :
    frameLoop arr idx ptr =
      playFrame (decodeFrame (arr.getD idx [])) ++ frameLoop arr (idx + 1) ptr := by
  unfold frameLoop
  obtain ⟨m, hm⟩ : ∃ m, ptr - idx = m + 1 := ⟨ptr - idx - 1, by omega⟩
  rw [hm, show ptr - (idx + 1) = m from by omega]
  rfl

theorem pulseLoop_eq_flatten (f : Frame) (n : Nat) :
    pulseLoop f n =
      (List.replicate n
        (dispatchEvents f ++ [IREvent.delayMs f.bDelayBetweenPulseTrainRepeats])).flatten := by
  induction n with
  | zero => rfl
  | succ n ih => simp [pulseLoop, List.replicate_succ, ih]

theorem buttonLoop_eq_flatten (f : Frame) (n : Nat) :
    buttonLoop f n =
      (List.replicate n
        (pulseLoop f f.bPulseTrainRepeats ++
          (if 0 < f.ui16DelayBetweenButtonRepeats then
            [IREvent.delayMs f.ui16DelayBetweenButtonRepeats] else []))).flatten := by
  induction n with
  | zero => rfl
  | succ n ih => simp [buttonLoop, List.replicate_succ, ih]

theorem ends_append_left {α : Type} (u : List α) {l : List α} {a : α}
    (h : ∃ t, l = t ++ [a]) : ∃ t, u ++ l = t ++ [a] := by
  obtain ⟨t, rfl⟩ := h
  exact ⟨u ++ t, by simp⟩

theorem pulseLoop_ends_delay (f : Frame) (n : Nat) (hn : 0 < n) :
    ∃ t, pulseLoop f n =
      t ++ [IREvent.delayMs f.bDelayBetweenPulseTrainRepeats] := by
  induction n with
  | zero => omega
  | succ n ih =>
      cases n with
      | zero => exact ⟨dispatchEvents f, by simp [pulseLoop]⟩
      | succ m =>
          rw [pulseLoop]
          exact ends_append_left _ (ih (by omega))

theorem buttonLoop_ends_btnDelay (f : Frame) (n : Nat) (hn : 0 < n)
    (hb : 0 < f.ui16DelayBetweenButtonRepeats) :
    ∃ t, buttonLoop f n =
      t ++ [IREvent.delayMs f.ui16DelayBetweenButtonRepeats] := by
  induction n with
  | zero => omega
  | succ n ih =>
      cases n with
      | zero =>
          refine ⟨pulseLoop f f.bPulseTrainRepeats, ?_⟩
          simp [buttonLoop, hb]
      | succ m =>
          rw [buttonLoop]
          exact ends_append_left _ (ih (by omega))

theorem buttonLoop_ends_ptDelay (f : Frame) (n : Nat) (hn : 0 < n)
    (hP : 0 < f.bPulseTrainRepeats) (hb : f.ui16DelayBetweenButtonRepeats = 0) :
    ∃ t, buttonLoop f n =
      t ++ [IREvent.delayMs f.bDelayBetweenPulseTrainRepeats] := by
  induction n with
  | zero => omega
  | succ n ih =>
      cases n with
      | zero =>
          have h1 := pulseLoop_ends_delay f f.bPulseTrainRepeats hP
          obtain ⟨t, ht⟩ := h1
          exact ⟨t, by simp [buttonLoop, hb, ht]⟩
      | succ m =>
          rw [buttonLoop]
          exact ends_append_left _ (ih (by omega))

/-! ### Repeat semantics and dispatch behavior -/

/-- Claim C1: for a played-back frame with a recognized encoding, the encoder
dispatch sends exactly `bButtonRepeats * bPulseTrainRepeats` waveforms; for
`bPulseTrainRepeats = 3`, `bButtonRepeats = 2` (and a positive button-repeat
delay) the emitted trace is exactly six dispatches, with the pulse-train delay
between every pair of consecutive dispatches within a button repeat and the
button-repeat delay between the two button repeats. -/
theorem C1_repeat_semantics (f : Frame) (henc : f.bEncoding ≤ 4) :
    ∃ e, isSend e = true ∧ dispatchEvents f = [e] ∧
      sendCount (playFrame f) = f.bButtonRepeats * f.bPulseTrainRepeats ∧
      (f.bPulseTrainRepeats = 3 → f.bButtonRepeats = 2 →
        0 < f.ui16DelayBetweenButtonRepeats →
        playFrame f =
          [e, IREvent.delayMs f.bDelayBetweenPulseTrainRepeats,
           e, IREvent.delayMs f.bDelayBetweenPulseTrainRepeats,
           e, IREvent.delayMs f.bDelayBetweenPulseTrainRepeats,
           IREvent.delayMs f.ui16DelayBetweenButtonRepeats,
           e, IREvent.delayMs f.bDelayBetweenPulseTrainRepeats,
           e, IREvent.delayMs f.bDelayBetweenPulseTrainRepeats,
           e, IREvent.delayMs f.bDelayBetweenPulseTrainRepeats,
           IREvent.delayMs f.ui16DelayBetweenButtonRepeats]) := by
  obtain ⟨e, hse, hde⟩ := dispatchEvents_known f henc
  have h1 : sendCount [e] = 1 := by simp [sendCount, List.countP_cons, hse]
  refine ⟨e, hse, hde, ?_, ?_⟩
  · rw [sendCount_playFrame, hde, h1, Nat.mul_one]
  · intro hP hB hbtn
    simp [playFrame, hB, hP, buttonLoop, pulseLoop, hde, hbtn]

/-- The demonstration "Sky button 1" frame with the repeat counts of the C1
scenario: 3 pulse-train repeats, 2 button repeats. -/
def c1Frame : Frame := Frame.mk 0 12606465 24 3 124 2 400 255

/-- Witness for C1 at `c1Frame`. -/
theorem C1_repeat_semantics_witness :
    ∃ e, isSend e = true ∧ dispatchEvents c1Frame = [e] ∧
      sendCount (playFrame c1Frame) =
        c1Frame.bButtonRepeats * c1Frame.bPulseTrainRepeats ∧
      (c1Frame.bPulseTrainRepeats = 3 → c1Frame.bButtonRepeats = 2 →
        0 < c1Frame.ui16DelayBetweenButtonRepeats →
        playFrame c1Frame =
          [e, IREvent.delayMs c1Frame.bDelayBetweenPulseTrainRepeats,
           e, IREvent.delayMs c1Frame.bDelayBetweenPulseTrainRepeats,
           e, IREvent.delayMs c1Frame.bDelayBetweenPulseTrainRepeats,
           IREvent.delayMs c1Frame.ui16DelayBetweenButtonRepeats,
           e, IREvent.delayMs c1Frame.bDelayBetweenPulseTrainRepeats,
           e, IREvent.delayMs c1Frame.bDelayBetweenPulseTrainRepeats,
           e, IREvent.delayMs c1Frame.bDelayBetweenPulseTrainRepeats,
           IREvent.delayMs c1Frame.ui16DelayBetweenButtonRepeats]) :=
  C1_repeat_semantics c1Frame (by decide)

/-- Claim C10: the engine delays `bDelayBetweenPulseTrainRepeats` after every
dispatch — the trace is `bButtonRepeats` copies of (`bPulseTrainRepeats`
copies of dispatch-then-delay, then the button delay when positive) — and the
trailing delays really occur: with a positive button-repeat delay the whole
frame trace ends in that delay, and with button delay 0 (and at least one
repeat at each level) it ends in the pulse-train delay. -/
theorem C10_delays_after_every_repeat (f : Frame) :
    playFrame f =
      (List.replicate f.bButtonRepeats
        ((List.replicate f.bPulseTrainRepeats
            (dispatchEvents f ++
              [IREvent.delayMs f.bDelayBetweenPulseTrainRepeats])).flatten
          ++ (if 0 < f.ui16DelayBetweenButtonRepeats then
                [IREvent.delayMs f.ui16DelayBetweenButtonRepeats] else []))).flatten ∧
    (0 < f.bButtonRepeats → 0 < f.ui16DelayBetweenButtonRepeats →
      ∃ t, playFrame f = t ++ [IREvent.delayMs f.ui16DelayBetweenButtonRepeats]) ∧
    (0 < f.bButtonRepeats → 0 < f.bPulseTrainRepeats →
      f.ui16DelayBetweenButtonRepeats = 0 →
      ∃ t, playFrame f = t ++ [IREvent.delayMs f.bDelayBetweenPulseTrainRepeats]) := by
  refine ⟨?_, ?_, ?_⟩
  · rw [playFrame, buttonLoop_eq_flatten]
    simp [pulseLoop_eq_flatten]
  · intro hB hbtn
    exact buttonLoop_ends_btnDelay f f.bButtonRepeats hB hbtn
  · intro hB hP hbtn
    exact buttonLoop_ends_ptDelay f f.bButtonRepeats hB hP hbtn

/-- Witness for C10: at `c1Frame` the frame trace ends with the 400 ms
button-repeat delay. -/
theorem C10_delays_after_every_repeat_witness :
    ∃ t, playFrame c1Frame =
      t ++ [IREvent.delayMs c1Frame.ui16DelayBetweenButtonRepeats] :=
  (C10_delays_after_every_repeat c1Frame).2.1 (by decide) (by decide)

/-- Claim C7: an encoding value outside 0..4 makes the dispatch a no-op: the
`switch` emits nothing, the whole frame plays with zero sends, and the outer
playback loop still consumes the entry and continues with the remaining
frames. -/
theorem C7_unknown_encoding_noop (f : Frame) (h : 4 < f.bEncoding) :
    dispatchEvents f = [] ∧ sendCount (playFrame f) = 0 ∧
      ∀ arr idx ptr, idx < ptr → decodeFrame (arr.getD idx []) = f →
        frameLoop arr idx ptr = playFrame f ++ frameLoop arr (idx + 1) ptr := by
  have hd := dispatchEvents_unknown f h
  refine ⟨hd, ?_, ?_⟩
  · rw [sendCount_playFrame, hd]
    simp [sendCount]
  · intro arr idx ptr hlt heq
    rw [frameLoop_cons arr idx ptr hlt, heq]

/-- A frame carrying the unrecognized encoding value 7. -/
def c7Frame : Frame := Frame.mk 7 1234 16 2 10 1 0 255

/-- Witness for C7 at `c7Frame`. -/
theorem C7_unknown_encoding_noop_witness :
    dispatchEvents c7Frame = [] ∧ sendCount (playFrame c7Frame) = 0 ∧
      ∀ arr idx ptr, idx < ptr → decodeFrame (arr.getD idx []) = c7Frame →
        frameLoop arr idx ptr = playFrame c7Frame ++ frameLoop arr (idx + 1) ptr :=
  C7_unknown_encoding_noop c7Frame (by decide)

/-- Claim C9: a frame with `bButtonRepeats = 0` (or `bPulseTrainRepeats = 0`)
plays with zero encoder dispatches, the outer loop still advances past it to
the next entry, and playback of the batch still completes: a `loop()` call
entered idle with the fresh-data flag raised always ends idle with
`uiDataArrayPointer` reset to 0 and the ready pin HIGH. -/
theorem C9_zero_repeats_no_dispatch (f : Frame)
    (h : f.bButtonRepeats = 0 ∨ f.bPulseTrainRepeats = 0) :
    sendCount (playFrame f) = 0 ∧
      (∀ arr idx ptr, idx < ptr → decodeFrame (arr.getD idx []) = f →
        frameLoop arr idx ptr = playFrame f ++ frameLoop arr (idx + 1) ptr) ∧
      (∀ s : SimState, s.current_state = eSEND_STATE.eIDLE →
        s.bFreshDataFlag = true →
        (loopStep s).1.current_state = eSEND_STATE.eIDLE ∧
        (loopStep s).1.uiDataArrayPointer = 0 ∧
        (loopStep s).1.readyPin = true) := by
  refine ⟨?_, ?_, ?_⟩
  · rw [sendCount_playFrame]
    rcases h with h | h <;> rw [h] <;> ring
  · intro arr idx ptr hlt heq
    rw [frameLoop_cons arr idx ptr hlt, heq]
  · intro s hidle hflag
    obtain ⟨arr, rp, ptr, flag, st, idx, pin⟩ := s
    simp only at hidle hflag
    subst hidle hflag
    simp [loopStep]

/-- A committed frame with `bButtonRepeats = 0`. -/
def c9Frame : Frame := Frame.mk 1 5 8 3 10 0 100 255

/-- Witness for C9 at `c9Frame`. -/
theorem C9_zero_repeats_no_dispatch_witness :
    sendCount (playFrame c9Frame) = 0 ∧
      (∀ arr idx ptr, idx < ptr → decodeFrame (arr.getD idx []) = c9Frame →
        frameLoop arr idx ptr = playFrame c9Frame ++ frameLoop arr (idx + 1) ptr) ∧
      (∀ s : SimState, s.current_state = eSEND_STATE.eIDLE →
        s.bFreshDataFlag = true →
        (loopStep s).1.current_state = eSEND_STATE.eIDLE ∧
        (loopStep s).1.uiDataArrayPointer = 0 ∧
        (loopStep s).1.readyPin = true) :=
  C9_zero_repeats_no_dispatch c9Frame (Or.inl rfl)

/-! ### Helper lemmas about the receive queue -/

theorem getD_set_self_of_lt {α : Type} (l : List α) (i : Nat) (a d : α)
    (h : i < l.length) : (l.set i a).getD i d = a := by
  rw [List.getD_eq_getElem _ _ (by simpa using h)]
  rw [List.getElem_set_self]

theorem getD_set_of_ne {α : Type} (l : List α) (i j : Nat) (a d : α)
    (h : i ≠ j) : (l.set i a).getD j d = l.getD j d := by
  by_cases hj : j < l.length
  · rw [List.getD_eq_getElem _ _ (by simpa using hj), List.getD_eq_getElem _ _ hj]
    rw [List.getElem_set_ne h]
  · rw [List.getD_eq_default _ _ (by simp; omega), List.getD_eq_default _ _ (by omega)]

theorem receiveEvent_valid (s : SimState) (bytes : List Nat)
    (hb : bytes.length = MAX_BUFFER) :
    receiveEvent s bytes =
      { s with
        uiRegisterPointer := MAX_BUFFER
        uDataArray := s.uDataArray.set s.uiDataArrayPointer bytes
        bFreshDataFlag := if bytes.getD 11 0 ≠ 0 then true else s.bFreshDataFlag
        uiDataArrayPointer :=
          if s.uiDataArrayPointer < MAX_SEQUENCES - 1 then s.uiDataArrayPointer + 1
          else s.uiDataArrayPointer } := by
  unfold receiveEvent
  rw [if_pos ⟨by rw [hb]; decide, hb⟩]

theorem receiveEvent_malformed (s : SimState) (bytes : List Nat)
    (hb : bytes.length ≠ MAX_BUFFER) :
    receiveEvent s bytes = s := by
  unfold receiveEvent
  rw [if_neg]
  rintro ⟨-, h2⟩
  exact hb h2

theorem receiveAll_append_one (s : SimState) (ts : List (List Nat))
    (t : List Nat) :
    receiveAll s (ts ++ [t]) = receiveEvent (receiveAll s ts) t := by
  simp [receiveAll, List.foldl_append]

/-- Full characterization of a run of well-formed 12-byte transfers against a
fresh queue: the write cursor is the number of accepted transfers clamped to
`MAX_SEQUENCES - 1`, the storage keeps its 20 slots, the first
`MAX_SEQUENCES - 1` transfers sit in their append-order slots, and every
transfer beyond that lands in (overwrites) the last slot. -/
theorem receiveAll_valid_characterization (ts : List (List Nat))
    (h : ∀ t ∈ ts, t.length = MAX_BUFFER) :
    (receiveAll setupState ts).uiDataArrayPointer =
      min ts.length (MAX_SEQUENCES - 1) ∧
    (receiveAll setupState ts).uDataArray.length = MAX_SEQUENCES ∧
    (∀ i, i < min ts.length (MAX_SEQUENCES - 1) →
      (receiveAll setupState ts).uDataArray.getD i [] = ts.getD i []) ∧
    (MAX_SEQUENCES ≤ ts.length →
      (receiveAll setupState ts).uDataArray.getD (MAX_SEQUENCES - 1) [] =
        ts.getD (ts.length - 1) []) := by
  induction ts using List.reverseRecOn with
  | nil =>
      refine ⟨rfl, rfl, ?_, ?_⟩
      · intro i hi
        simp at hi
      · intro hlen
        simp [MAX_SEQUENCES] at hlen
  | append_singleton ts t ih =>
      have hm20 : MAX_SEQUENCES = 20 := rfl
      have h' : ∀ u ∈ ts, u.length = MAX_BUFFER := fun u hu => h u (by simp [hu])
      have ht : t.length = MAX_BUFFER := h t (by simp)
      obtain ⟨hp, hlen, hget, hlast⟩ := ih h'
      rw [receiveAll_append_one, receiveEvent_valid _ _ ht]
      simp only [List.length_append, List.length_singleton]
      refine ⟨?_, ?_, ?_, ?_⟩
      · simp only [hp]
        split <;> omega
      · simpa using hlen
      · intro i hi
        simp only [hp]
        by_cases hcase : ts.length < MAX_SEQUENCES - 1
        · -- cursor at `ts.length`; the new entry goes to slot `ts.length`
          by_cases hi2 : i < ts.length
          · rw [getD_set_of_ne _ _ _ _ _ (by omega),
              List.getD_append _ _ _ _ (by omega)]
            exact hget i (by omega)
          · have hieq : i = ts.length := by omega
            subst hieq
            rw [show min ts.length (MAX_SEQUENCES - 1) = ts.length from by omega,
              getD_set_self_of_lt _ _ _ _ (by rw [hlen]; omega),
              List.getD_append_right _ _ _ _ (by omega)]
            simp
        · -- cursor clamped at `MAX_SEQUENCES - 1`; the new entry overwrites the
          -- last slot, leaving slots `0 .. MAX_SEQUENCES - 2` untouched
          have hi2 : i < MAX_SEQUENCES - 1 := by omega
          rw [getD_set_of_ne _ _ _ _ _ (by omega),
            List.getD_append _ _ _ _ (by omega)]
          exact hget i (by omega)
      · intro hlen2
        simp only [hp]
        rw [show ts.length + 1 - 1 = ts.length from by omega,
          show min ts.length (MAX_SEQUENCES - 1) = MAX_SEQUENCES - 1 from by omega,
          getD_set_self_of_lt _ _ _ _ (by rw [hlen]; omega),
          List.getD_append_right _ _ _ _ (by omega)]
        simp

/-! ### Queue claims -/

/-- A committed Sony frame (`bFreshData = 255` at offset 11), 1 pulse-train
repeat, 1 button repeat: it plays with exactly one send. -/
def committedSonyBytes : List Nat := [1, 12, 20, 0, 0, 15, 1, 22, 1, 0, 0, 255]

/-- An uncommitted NEC frame (`bFreshData = 0`), 1 pulse-train repeat, 1
button repeat. -/
def uncommittedNecBytes : List Nat := [3, 1, 0, 0, 0, 32, 1, 45, 1, 0, 0, 0]

/-- Counterexample to claim C2: append a committed frame first and an
uncommitted frame second.  The first committed frame sits at 1-based position
1, yet the playback bound `uiDataArrayPointer` is 2, and playback really uses
that bound: the `loop()` run dispatches 2 sends (one per appended frame), not
1.  There is no separate `committedCount` in the code; appends after the
committed frame keep moving the bound. -/
theorem C2_counterexample :
    committedSonyBytes.getD 11 0 ≠ 0 ∧
    uncommittedNecBytes.getD 11 0 = 0 ∧
    (receiveAll setupState
      [committedSonyBytes, uncommittedNecBytes]).uiDataArrayPointer = 2 ∧
    (2 : Nat) ≠ 1 ∧
    sendCount (loopStep (receiveAll setupState
      [committedSonyBytes, uncommittedNecBytes])).2 = 2 := by
  decide

/-- Claim C2 (amended): after a batch of well-formed appends the playback
bound `uiDataArrayPointer` equals the total number of appended frames clamped
to `MAX_SEQUENCES - 1` — regardless of which frame (if any) carried the
committed flag; frames appended after the first committed one keep advancing
the bound. -/
theorem C2_amended_playback_bound (ts : List (List Nat))
    (h : ∀ t ∈ ts, t.length = MAX_BUFFER) :
    (receiveAll setupState ts).uiDataArrayPointer =
      min ts.length (MAX_SEQUENCES - 1) :=
  (receiveAll_valid_characterization ts h).1

/-- Witness for the amended C2: one committed append yields bound 1. -/
theorem C2_amended_playback_bound_witness :
    (receiveAll setupState [committedSonyBytes]).uiDataArrayPointer =
      min [committedSonyBytes].length (MAX_SEQUENCES - 1) :=
  C2_amended_playback_bound [committedSonyBytes] (by decide)

/-- Claim C3 (code bug): a malformed transfer (byte count ≠ 12) appends no
frame and leaves the whole state — `uiDataArrayPointer`, `bFreshDataFlag`,
the storage — unchanged, but the drain loop
`for (int x = 0; x < howMany-1; x++) b = Wire.read();` reads only
`howMany - 1` of the `howMany` available bytes: a 13-byte transfer leaves one
byte undrained (and a 1-byte transfer reads nothing), contradicting both the
claim and the code's own comment "just clear the I2C RX buffer". -/
theorem C3_malformed_transfer :
    receiveEvent setupState (List.replicate 13 7) = setupState ∧
    receiveEvent setupState [171] = setupState ∧
    wireReadsInReceiveEvent 13 = 12 ∧
    wireReadsInReceiveEvent 13 ≠ 13 ∧
    wireReadsInReceiveEvent 1 = 0 := by
  decide

/-- Claim C4: over any run of `MAX_SEQUENCES + k` (k > 0) well-formed 12-byte
appends, the write cursor never exceeds `MAX_SEQUENCES - 1` at any point of
the run, the storage keeps exactly its `MAX_SEQUENCES` slots (no write lands
outside), the first `MAX_SEQUENCES - 1` frames are retained verbatim in
append order, and each excess frame just overwrites the last slot (which ends
up holding the final append). -/
theorem C4_capacity_clamp (ts : List (List Nat)) (k : Nat)
    (h : ∀ t ∈ ts, t.length = MAX_BUFFER)
    (hlen : ts.length = MAX_SEQUENCES + k) (hk : 0 < k) :
    (∀ m, (receiveAll setupState (ts.take m)).uiDataArrayPointer ≤
      MAX_SEQUENCES - 1) ∧
    (receiveAll setupState ts).uDataArray.length = MAX_SEQUENCES ∧
    (∀ i, i < MAX_SEQUENCES - 1 →
      (receiveAll setupState ts).uDataArray.getD i [] = ts.getD i []) ∧
    (receiveAll setupState ts).uDataArray.getD (MAX_SEQUENCES - 1) [] =
      ts.getD (ts.length - 1) [] := by
  have hm20 : MAX_SEQUENCES = 20 := rfl
  obtain ⟨hp, hlen2, hget, hlast⟩ := receiveAll_valid_characterization ts h
  refine ⟨?_, hlen2, ?_, ?_⟩
  · intro m
    have hsub : ∀ u ∈ ts.take m, u.length = MAX_BUFFER :=
      fun u hu => h u (List.take_subset m ts hu)
    have := (receiveAll_valid_characterization (ts.take m) hsub).1
    rw [this]
    omega
  · intro i hi
    exact hget i (by omega)
  · exact hlast (by omega)

/-- 21 distinct well-formed frames: one more than the queue capacity. -/
def c4Transfers : List (List Nat) :=
  (List.range (MAX_SEQUENCES + 1)).map
    (fun j => [j, 0, 0, 0, 0, 8, 1, 1, 1, 0, 0, 0])

/-- Witness for C4 with `k = 1` (21 appends). -/
theorem C4_capacity_clamp_witness :
    (∀ m, (receiveAll setupState (c4Transfers.take m)).uiDataArrayPointer ≤
      MAX_SEQUENCES - 1) ∧
    (receiveAll setupState c4Transfers).uDataArray.length = MAX_SEQUENCES ∧
    (∀ i, i < MAX_SEQUENCES - 1 →
      (receiveAll setupState c4Transfers).uDataArray.getD i [] =
        c4Transfers.getD i []) ∧
    (receiveAll setupState c4Transfers).uDataArray.getD (MAX_SEQUENCES - 1) [] =
      c4Transfers.getD (c4Transfers.length - 1) [] :=
  C4_capacity_clamp c4Transfers 1 (by decide) (by decide) (by decide)

/-- Claim C6: `decodeFrame` is total on 12-byte inputs and the receive path
never rejects content — a well-formed transfer is stored verbatim (here into
slot 0 of a fresh queue) — and the decoded fields follow the fixed wire
layout: encoding at offset 0, `data` at 1..4 LSByte first, `bitCount` at 5,
`pulseTrainRepeats` at 6, its delay at 7, `buttonRepeats` at 8, the 16-bit
button-repeat delay at 9..10 LSByte first, committed iff byte 11 is nonzero;
an out-of-range `bitCount = 200` is preserved verbatim. -/
theorem C6_decode_total_fixed_layout (bs : List Nat)
    (h : bs.length = MAX_BUFFER) :
    (receiveEvent setupState bs).uDataArray.getD 0 [] = bs ∧
    (decodeFrame bs).bEncoding = bs.getD 0 0 ∧
    (decodeFrame bs).ui32Data =
      bs.getD 1 0 + 256 * bs.getD 2 0 + 65536 * bs.getD 3 0 +
        16777216 * bs.getD 4 0 ∧
    (decodeFrame bs).bNumberOfBitsInTheData = bs.getD 5 0 ∧
    (decodeFrame bs).bPulseTrainRepeats = bs.getD 6 0 ∧
    (decodeFrame bs).bDelayBetweenPulseTrainRepeats = bs.getD 7 0 ∧
    (decodeFrame bs).bButtonRepeats = bs.getD 8 0 ∧
    (decodeFrame bs).ui16DelayBetweenButtonRepeats =
      bs.getD 9 0 + 256 * bs.getD 10 0 ∧
    ((decodeFrame bs).bFreshData ≠ 0 ↔ bs.getD 11 0 ≠ 0) ∧
    (bs.getD 5 0 = 200 → (decodeFrame bs).bNumberOfBitsInTheData = 200) := by
  refine ⟨?_, rfl, rfl, rfl, rfl, rfl, rfl, rfl, Iff.rfl, fun h200 => h200⟩
  rw [receiveEvent_valid _ _ h]
  exact getD_set_self_of_lt _ _ _ _ (by decide)

/-- A 12-byte input with an unknown encoding (9) and out-of-range
`bitCount = 200`. -/
def c6Bytes : List Nat := [9, 1, 2, 3, 4, 200, 3, 124, 2, 144, 1, 255]

/-- Witness for C6 at `c6Bytes`. -/
theorem C6_decode_total_fixed_layout_witness :
    (receiveEvent setupState c6Bytes).uDataArray.getD 0 [] = c6Bytes ∧
    (decodeFrame c6Bytes).bEncoding = c6Bytes.getD 0 0 ∧
    (decodeFrame c6Bytes).ui32Data =
      c6Bytes.getD 1 0 + 256 * c6Bytes.getD 2 0 + 65536 * c6Bytes.getD 3 0 +
        16777216 * c6Bytes.getD 4 0 ∧
    (decodeFrame c6Bytes).bNumberOfBitsInTheData = c6Bytes.getD 5 0 ∧
    (decodeFrame c6Bytes).bPulseTrainRepeats = c6Bytes.getD 6 0 ∧
    (decodeFrame c6Bytes).bDelayBetweenPulseTrainRepeats = c6Bytes.getD 7 0 ∧
    (decodeFrame c6Bytes).bButtonRepeats = c6Bytes.getD 8 0 ∧
    (decodeFrame c6Bytes).ui16DelayBetweenButtonRepeats =
      c6Bytes.getD 9 0 + 256 * c6Bytes.getD 10 0 ∧
    ((decodeFrame c6Bytes).bFreshData ≠ 0 ↔ c6Bytes.getD 11 0 ≠ 0) ∧
    (c6Bytes.getD 5 0 = 200 →
      (decodeFrame c6Bytes).bNumberOfBitsInTheData = 200) :=
  C6_decode_total_fixed_layout c6Bytes (by decide)

/-- Claim C8: when the engine is `eBUSY` and the frame index has reached the
playback bound, `loop()` emits nothing further, transitions to `eIDLE`,
resets the queue (`uiDataArrayPointer = 0`, which is both the write cursor
and the committed/playback bound in this code), and drives pin 4 HIGH
(ready); a subsequent well-formed append then behaves exactly as on the
fresh post-`setup()` queue: same new cursor, same fresh-data flag, same
stored slot-0 contents. -/
theorem C8_busy_to_idle_reset (s : SimState) (bytes : List Nat)
    (hbusy : s.current_state = eSEND_STATE.eBUSY)
    (hidx : s.uiDataArrayPointer ≤ s.iDataArrayIndex)
    (hflag : s.bFreshDataFlag = false)
    (harr : s.uDataArray.length = MAX_SEQUENCES)
    (hb : bytes.length = MAX_BUFFER) :
    (loopStep s).1.current_state = eSEND_STATE.eIDLE ∧
    (loopStep s).1.uiDataArrayPointer = 0 ∧
    (loopStep s).1.readyPin = true ∧
    (loopStep s).2 = [] ∧
    (receiveEvent (loopStep s).1 bytes).uiDataArrayPointer =
      (receiveEvent setupState bytes).uiDataArrayPointer ∧
    (receiveEvent (loopStep s).1 bytes).bFreshDataFlag =
      (receiveEvent setupState bytes).bFreshDataFlag ∧
    (receiveEvent (loopStep s).1 bytes).uDataArray.getD 0 [] =
      (receiveEvent setupState bytes).uDataArray.getD 0 [] := by
  obtain ⟨arr, rp, ptr, flag, st, idx, pin⟩ := s
  simp only at hbusy hidx hflag harr
  subst hbusy hflag
  have hstep :
      loopStep ⟨arr, rp, ptr, false, eSEND_STATE.eBUSY, idx, pin⟩ =
        (⟨arr, rp, 0, false, eSEND_STATE.eIDLE, max idx ptr, true⟩, []) := by
    simp [loopStep, hidx, frameLoop, Nat.sub_eq_zero_of_le hidx, frameSteps]
  rw [hstep]
  refine ⟨rfl, rfl, rfl, rfl, ?_, ?_, ?_⟩
  · rw [receiveEvent_valid _ _ hb, receiveEvent_valid _ _ hb]
    rfl
  · rw [receiveEvent_valid _ _ hb, receiveEvent_valid _ _ hb]
    rfl
  · rw [receiveEvent_valid _ _ hb, receiveEvent_valid _ _ hb]
    show (arr.set 0 bytes).getD 0 [] = (setupState.uDataArray.set 0 bytes).getD 0 []
    rw [getD_set_self_of_lt _ _ _ _ (by rw [harr]; decide),
      getD_set_self_of_lt _ _ _ _ (by decide)]

/-- A busy state whose frame index has reached the playback bound. -/
def c8BusyState : SimState :=
  { uDataArray := List.replicate MAX_SEQUENCES (List.replicate MAX_BUFFER 0)
  , uiRegisterPointer := 12
  , uiDataArrayPointer := 2
  , bFreshDataFlag := false
  , current_state := eSEND_STATE.eBUSY
  , iDataArrayIndex := 2
  , readyPin := false }

/-- Witness for C8 at `c8BusyState` with a committed append. -/
theorem C8_busy_to_idle_reset_witness :
    (loopStep c8BusyState).1.current_state = eSEND_STATE.eIDLE ∧
    (loopStep c8BusyState).1.uiDataArrayPointer = 0 ∧
    (loopStep c8BusyState).1.readyPin = true ∧
    (loopStep c8BusyState).2 = [] ∧
    (receiveEvent (loopStep c8BusyState).1 committedSonyBytes).uiDataArrayPointer =
      (receiveEvent setupState committedSonyBytes).uiDataArrayPointer ∧
    (receiveEvent (loopStep c8BusyState).1 committedSonyBytes).bFreshDataFlag =
      (receiveEvent setupState committedSonyBytes).bFreshDataFlag ∧
    (receiveEvent (loopStep c8BusyState).1 committedSonyBytes).uDataArray.getD 0 [] =
      (receiveEvent setupState committedSonyBytes).uDataArray.getD 0 [] :=
  C8_busy_to_idle_reset c8BusyState committedSonyBytes rfl (by decide) rfl
    (by decide) (by decide)
